import Mathlib

/-!
# Verification of the WorldCat pool query-translation and field-mapping engine

Shallow embedding of `cmd/worldcat.go` (latest revision) of
`virgo4-pool-worldcat-ws`.  Go strings are modelled as `List Char`; the
Go standard-library string helpers used by the source (`strings.Index`,
`strings.LastIndex`, `strings.Contains`, `strings.Trim`,
`strings.TrimSpace`, `strings.ReplaceAll`, `strings.Split`,
`strings.Join`, `strconv.Atoi`) are implemented below with their Go
semantics.  Loops are embedded with explicit fuel; a fuel bound is proved
sufficient where the Go loop is unbounded.  A Go runtime panic (slice
index out of range) is modelled by a dedicated `crash` outcome.
-/

/-- Go strings, modelled as lists of characters. -/
abbrev GoStr := List Char

/-- Embed a Lean string literal as a Go string. -/
def gs (s : String) : GoStr := s.toList

namespace GoStrings

/-- `strings.Index(s, pat)`: byte index of the first occurrence of `pat`
in `s`, `none` when absent (Go returns `-1`). `Index(s, "") = 0`. -/
def strIndex (s pat : GoStr) : Option Nat :=
  if pat.isPrefixOf s then some 0
  else
    match s with
    | [] => none
    | _ :: rest => (strIndex rest pat).map (· + 1)

/-- `strings.LastIndex(s, pat)`: index of the last occurrence. -/
def strLastIndex (s pat : GoStr) : Option Nat :=
  match s with
  | [] => if pat = [] then some 0 else none
  | c :: rest =>
    match strLastIndex rest pat with
    | some i => some (i + 1)
    | none => if pat.isPrefixOf (c :: rest) then some 0 else none

/-- `strings.Contains(s, pat)`. -/
def strContains (s pat : GoStr) : Bool :=
  (strIndex s pat).isSome

/-- `strings.Trim(s, " ")`: drop leading and trailing spaces. -/
def strTrim (s : GoStr) : GoStr :=
  ((s.dropWhile (· = ' ')).reverse.dropWhile (· = ' ')).reverse

/-- Characters treated as white space by `strings.TrimSpace`
(`unicode.IsSpace` restricted to ASCII, which covers every input the
service builds). -/
def isGoSpace (c : Char) : Bool :=
  c = ' ' ∨ c = '\t' ∨ c = '\n' ∨ c = '\r' ∨ c = '\x0b' ∨ c = '\x0c'

/-- `strings.TrimSpace(s)`. -/
def strTrimSpace (s : GoStr) : GoStr :=
  ((s.dropWhile isGoSpace).reverse.dropWhile isGoSpace).reverse

/-- Worker for `strReplaceAll`; the fuel starts at `s.length`, which is
enough because every step consumes at least one character of `s`
(the source never calls `ReplaceAll` with an empty pattern). -/
def strReplaceAllAux : Nat → GoStr → GoStr → GoStr → GoStr
  | 0, s, _, _ => s
  | fuel + 1, s, old, new =>
    if old ≠ [] ∧ old.isPrefixOf s then
      new ++ strReplaceAllAux fuel (s.drop old.length) old new
    else
      match s with
      | [] => []
      | c :: rest => c :: strReplaceAllAux fuel rest old new

/-- `strings.ReplaceAll(s, old, new)`: replace every non-overlapping
occurrence of `old`, scanning left to right. -/
def strReplaceAll (s old new : GoStr) : GoStr :=
  strReplaceAllAux s.length s old new

/-- Worker for `strSplit`; fuel `s.length` suffices since each step
drops at least `sep.length ≥ 1` characters. -/
def strSplitAux : Nat → GoStr → GoStr → List GoStr
  | 0, s, _ => [s]
  | fuel + 1, s, sep =>
    if sep = [] then [s]
    else
      match strIndex s sep with
      | none => [s]
      | some i => s.take i :: strSplitAux fuel (s.drop (i + sep.length)) sep

/-- `strings.Split(s, sep)` for non-empty `sep` (the only form the
source uses). -/
def strSplit (s sep : GoStr) : List GoStr :=
  strSplitAux s.length s sep

/-- `strings.Join(elems, sep)`. -/
def strJoin : List GoStr → GoStr → GoStr
  | [], _ => []
  | [x], _ => x
  | x :: y :: xs, sep => x ++ sep ++ strJoin (y :: xs) sep

/-- Worker for `strCount`. -/
def strCountAux : Nat → GoStr → GoStr → Nat
  | 0, _, _ => 0
  | fuel + 1, s, pat =>
    if pat = [] then 0
    else
      match strIndex s pat with
      | none => 0
      | some i => 1 + strCountAux fuel (s.drop (i + pat.length)) pat

/-- `strings.Count(s, pat)` for non-empty `pat`: number of
non-overlapping occurrences. -/
def strCount (s pat : GoStr) : Nat :=
  strCountAux s.length s pat

/-- Decimal value of a digit string (used only to decide whether
`strconv.Atoi` succeeds). -/
def digitsVal (l : GoStr) : Int :=
  l.foldl (fun a c => a * 10 + (Int.ofNat c.toNat - 48)) 0

/-- `strconv.Atoi(s)`: `some` value on an optionally signed non-empty
digit string, `none` (an error) otherwise.  The source only tests
whether the call errs, so 64-bit overflow (which also errs in Go) is
not modelled. -/
def goAtoi (s : GoStr) : Option Int :=
  match s with
  | [] => none
  | '+' :: rest =>
    if rest ≠ [] ∧ rest.all Char.isDigit then some (digitsVal rest) else none
  | '-' :: rest =>
    if rest ≠ [] ∧ rest.all Char.isDigit then some (-(digitsVal rest)) else none
  | _ => if s.all Char.isDigit then some (digitsVal s) else none

end GoStrings

open GoStrings

/-! ## Date criteria translation (`convertDateCriteria`, `extractYear`) -/

/-- Result of the Go date-conversion function: the rewritten query, a
validation error carrying the Go error message, or a runtime panic
(slice index out of range). -/
inductive GoRes
  | ok (q : GoStr)
  | fail (msg : GoStr)
  | crash
  deriving DecidableEq, Repr

/-- `\d{4}` matches at the head of the list (RE2 `\d` is `[0-9]`). -/
def startsWithFourDigits : GoStr → Bool
  | a :: b :: c :: d :: _ => a.isDigit && b.isDigit && c.isDigit && d.isDigit
  | _ => false

/-- `regexp.Match("\d{4}", year)`: the unanchored pattern matches iff
the string contains four consecutive digits anywhere. -/
def hasFourDigitRun : GoStr → Bool
  | [] => false
  | c :: rest => startsWithFourDigits (c :: rest) || hasFourDigitRun rest

/-- `extractYear(yearStr)`: split on `-`, keep the part before the
first dash, and accept it whenever the unanchored `\d{4}` regexp
matches it. -/
def extractYear (yearStr : GoStr) : Except GoStr GoStr :=
  let parts := strSplit yearStr (gs "-")
  let year := parts.headD []
  if hasFourDigitRun year then Except.ok year
  else Except.error (gs "Only 4 digit year is accepted in a date search")

/-- The body of `convertDateCriteria`'s `if/else` chain: rewrite one
brace-delimited date value `qt` into the upstream `srw.yr` form.  The
`TO` branch reproduces the source exactly: both `extractYear` calls
receive `years[0]`. -/
def rewriteDateToken (qt : GoStr) : Except GoStr GoStr :=
  if strContains qt (gs "AFTER") then
    match extractYear (strTrim (strReplaceAll qt (gs "AFTER") [])) with
    | Except.error e => Except.error e
    | Except.ok year => Except.ok (gs "srw.yr > " ++ year)
  else if strContains qt (gs "BEFORE") then
    match extractYear (strTrim (strReplaceAll qt (gs "BEFORE") [])) with
    | Except.error e => Except.error e
    | Except.ok year => Except.ok (gs "srw.yr < " ++ year)
  else if strContains qt (gs "TO") then
    let years := strSplit qt (gs " TO ")
    match extractYear (years.headD []) with
    | Except.error _ => Except.error (gs "Starting year is invalid")
    | Except.ok yearFrom =>
      match extractYear (years.headD []) with
      | Except.error _ => Except.error (gs "Ending year is invalid")
      | Except.ok yearTo =>
        Except.ok (gs "srw.yr >= " ++ yearFrom ++ gs " and srw.yr <= " ++ yearTo)
  else
    match extractYear (strTrim qt) with
    | Except.error e => Except.error e
    | Except.ok year => Except.ok (gs "srw.yr = " ++ year)

/-- One iteration of `convertDateCriteria`'s `for` loop. -/
inductive DateStep
  | done (q : GoStr)
  | next (q : GoStr)
  | failed (msg : GoStr)
  | crashed
  deriving DecidableEq, Repr

/-- One pass of the loop body of `convertDateCriteria`: locate the
first `date:`; take `chunk := query[dateIdx:]`; locate the first `{`
and `}` inside `chunk`; `pre`/`post` are the trimmed text before the
marker and after the `}`; `qt := Trim(chunk[i0+1:i1], " ")` — Go
panics when `i1 = -1` or `i0+1 > i1`; rewrite `qt` and splice with
`fmt.Sprintf("%s %s %s", pre, qt, post)`. -/
def convertDateStep (query : GoStr) : DateStep :=
  match strIndex query (gs "date:") with
  | none => DateStep.done query
  | some dateIdx =>
    let chunk := query.drop dateIdx
    let i0opt := strIndex chunk (gs "\x7b")
    let pre := strTrim (query.take dateIdx)
    match strIndex chunk (gs "\x7d") with
    | none => DateStep.crashed
    | some i1 =>
      let post := strTrim (query.drop (dateIdx + i1 + 1))
      let lo : Nat := match i0opt with | none => 0 | some i0 => i0 + 1
      if lo > i1 then DateStep.crashed
      else
        let qt := strTrim ((chunk.take i1).drop lo)
        match rewriteDateToken qt with
        | Except.error e => DateStep.failed e
        | Except.ok qt2 =>
          DateStep.next (pre ++ gs " " ++ qt2 ++ gs " " ++ post)

/-- The `for` loop of `convertDateCriteria`, with explicit fuel; `none`
means the fuel ran out before the loop finished. -/
def convertDateLoop : Nat → GoStr → Option GoRes
  | 0, _ => none
  | fuel + 1, q =>
    match convertDateStep q with
    | DateStep.done q' => some (GoRes.ok q')
    | DateStep.failed e => some (GoRes.fail e)
    | DateStep.crashed => some GoRes.crash
    | DateStep.next q' => convertDateLoop fuel q'

/-- `convertDateCriteria(query)`.  The fuel `count of close braces + 1`
is proved sufficient below (`convertDateLoop_enough_fuel`): every
rewrite consumes the first close brace after the first `date:` marker
and introduces none, so the loop always stops within that budget. -/
def convertDateCriteria (query : GoStr) : Option GoRes :=
  convertDateLoop (query.count '}' + 1) query

example : convertDateCriteria (gs "date: {1987}") =
    some (GoRes.ok (gs " srw.yr = 1987 ")) := by decide

example : convertDateCriteria (gs "date: {1987 TO 1990}") =
    some (GoRes.ok (gs " srw.yr >= 1987 and srw.yr <= 1987 ")) := by decide

example : convertDateCriteria (gs "date: {AFTER 2010}") =
    some (GoRes.ok (gs " srw.yr > 2010 ")) := by decide

example : convertDateCriteria (gs "date: {BEFORE 1990} keyword: {cats}") =
    some (GoRes.ok (gs " srw.yr < 1990 keyword: {cats}")) := by decide

example : convertDateCriteria (gs "date: {199}") =
    some (GoRes.fail (gs "Only 4 digit year is accepted in a date search")) := by
  decide

/-! ## Search request processing (`search`, worldcat.go latest revision)

The handler steps that decide what happens to a validated query are
embedded as a pure function of the request query, the filter list and
the pagination numbers.  The HTTP transport, XML parsing and response
envelope are outside the translation logic; the `forward` outcome
carries the upstream query string (before URL escaping) and the
pagination parameter string exactly as interpolated into the GET URL. -/

/-- What the `search` handler does with a request after grammar
validation. -/
inductive SearchOutcome
  | badRequest (msg : GoStr)
  | notImplemented (msg : GoStr)
  | emptyResult
  | forward (query pagination : GoStr)
  | crashed
  deriving DecidableEq, Repr

/-- `fmt.Sprintf("startRecord=%d&maximumRecords=%d", req.Pagination.Start,
req.Pagination.Rows)`. -/
def goPagination (start rows : Int) : GoStr :=
  gs "startRecord=" ++ gs (toString start) ++ gs "&maximumRecords=" ++ gs (toString rows)

/-- The institution-exclusion suffix appended unconditionally. -/
def uvaExclusions : GoStr :=
  gs " NOT srw.li = VA@  NOT srw.li = VAL NOT srw.li = VAM"

/-- The `search` handler decision pipeline: journal-title rejection,
date conversion, brace stripping and field-prefix substitution,
degenerate-query rejection, filter short-circuit, single-clause
numeric-keyword identifier augmentation, institution exclusion,
forward. -/
def searchOutcome (query : GoStr) (filters : List GoStr) (start rows : Int) :
    SearchOutcome :=
  if strContains query (gs "journal_title:") then
    SearchOutcome.notImplemented (gs "Journal Title queries are not supported")
  else
    let paginationStr := goPagination start rows
    match convertDateCriteria query with
    | none => SearchOutcome.crashed
    | some GoRes.crash => SearchOutcome.crashed
    | some (GoRes.fail e) => SearchOutcome.badRequest e
    | some (GoRes.ok q1) =>
      let q2 := strReplaceAll q1 (gs "\x7b") []
      let q3 := strReplaceAll q2 (gs "\x7d") []
      let q4 := strReplaceAll q3 (gs "keyword:") (gs "srw.kw all")
      let q5 := strReplaceAll q4 (gs "title:") (gs "srw.ti all")
      let q6 := strReplaceAll q5 (gs "author:") (gs "srw.au all")
      let q7 := strReplaceAll q6 (gs "subject:") (gs "srw.su all")
      let q8 := strReplaceAll q7 (gs "identifier:") (gs "srw.bn =")
      let parsedQ := strTrimSpace q8
      if parsedQ = gs "srw.kw all" ∨ parsedQ = gs "srw.kw all *" then
        SearchOutcome.notImplemented (gs "At least 3 characters are required.")
      else if filters ≠ [] ∨ strContains query (gs "filter:") then
        SearchOutcome.emptyResult
      else if strContains parsedQ (gs "srw.") ∧
          strIndex parsedQ (gs "srw.") = strLastIndex parsedQ (gs "srw.") ∧
          strIndex parsedQ (gs "srw.") = strIndex parsedQ (gs "srw.kw") then
        match strSplit parsedQ (gs "all") with
        | _ :: p1 :: _ =>
          let param := strTrim p1
          if (goAtoi param).isSome then
            SearchOutcome.forward
              (parsedQ ++ gs " OR srw.bn = " ++ param ++ uvaExclusions) paginationStr
          else
            SearchOutcome.forward (parsedQ ++ uvaExclusions) paginationStr
        | _ => SearchOutcome.crashed
      else
        SearchOutcome.forward (parsedQ ++ uvaExclusions) paginationStr

example : searchOutcome (gs "keyword: {12345}") [] 0 20 =
    SearchOutcome.forward
      (gs "srw.kw all 12345 OR srw.bn = 12345 NOT srw.li = VA@  NOT srw.li = VAL NOT srw.li = VAM")
      (gs "startRecord=0&maximumRecords=20") := by decide

example : searchOutcome (gs "keyword: {}") [] 0 20 =
    SearchOutcome.notImplemented (gs "At least 3 characters are required.") := by decide

example : searchOutcome (gs "keyword: {cats}") [gs "FilterCirculating"] 0 20 =
    SearchOutcome.emptyResult := by decide

example : searchOutcome (gs "date: {1987}") [] 0 20 =
    SearchOutcome.forward
      (gs "srw.yr = 1987 NOT srw.li = VA@  NOT srw.li = VAL NOT srw.li = VAM")
      (gs "startRecord=0&maximumRecords=20") := by decide

/-! ## Field mapping (`getResultFields`, `getResource` enrichment) -/

/-- `wcRecord`: one parsed WorldCat Dublin Core record. -/
structure WcRecord where
  ID : GoStr := []
  Date : GoStr := []
  Language : GoStr := []
  ISBN : List GoStr := []
  Creator : List GoStr := []
  Contributor : List GoStr := []
  Description : List GoStr := []
  Subjects : List GoStr := []
  Title : List GoStr := []
  Type' : List GoStr := []
  Formats : List GoStr := []
  Publishers : List GoStr := []
  deriving DecidableEq, Repr

/-- `v4api.RecordField`; unset Go struct fields are the empty string. -/
structure RecordField where
  Name : GoStr
  Type' : GoStr := []
  Label : GoStr := []
  Value : GoStr := []
  Visibility : GoStr := []
  Display : GoStr := []
  Provider : GoStr := []
  CitationPart : GoStr := []
  deriving DecidableEq, Repr

/-- Provider classification of an access URL: the `if/else` chain over
substring matches inside the ISBN loop, defaulting to `worldcat`. -/
def accessProvider (val : GoStr) : GoStr :=
  if strContains val (gs "hathitrust") then gs "hathitrust"
  else if strContains val (gs "proquest") then gs "proquest"
  else if strContains val (gs "google") then gs "google"
  else if strContains val (gs "vlebooks") then gs "vlebooks"
  else if strContains val (gs "canadiana") then gs "canadiana"
  else if strContains val (gs "overdrive") then gs "overdrive"
  else gs "worldcat"

/-- The loop over `wcRec.ISBN`: values without `http` become `isbn`
fields; URL values matching `api.overdrive` or `[institution]` are
skipped; remaining URLs become `access_url` fields and set the
`online` flag.  Returns the fields appended by the loop, in order,
together with the final value of `online`. -/
def isbnFields : List GoStr → List RecordField × Bool
  | [] => ([], false)
  | val :: rest =>
    let tail := isbnFields rest
    if strContains val (gs "http") = false then
      ({ Name := gs "isbn", Type' := gs "isbn", Label := gs "ISBN", Value := val,
         CitationPart := gs "serial_number" } :: tail.1, tail.2)
    else if strContains val (gs "api.overdrive") || strContains val (gs "[institution]") then
      tail
    else
      ({ Name := gs "access_url", Type' := gs "url", Label := gs "Online Access",
         Value := val, Provider := accessProvider val } :: tail.1, true)

/-- `getResultFields(wcRec)` from the latest revision.  Notes kept from
the source: the availability field construction is commented out in
the source, so the computed `online` flag no longer feeds any field;
the `Publishers`, `Formats` and `Type` loops assign a local variable
without appending it, so they contribute no fields; `wcRec.Title[0]`
panics when the title list is empty, modelled as `none`.
`html.UnescapeString` is a Go library collaborator and is passed in as
the parameter `unescape`. -/
def getResultFields (unescape : GoStr → GoStr) (wcRec : WcRecord) :
    Option (List RecordField) :=
  match wcRec.Title with
  | [] => none
  | t0 :: _ =>
    let base : List RecordField :=
      [ { Name := gs "id", Type' := gs "identifier", Label := gs "Identifier",
          Value := wcRec.ID, Display := gs "optional", CitationPart := gs "id" },
        { Name := gs "publication_date", Type' := gs "publication_date",
          Label := gs "Publication Date", Value := wcRec.Date,
          CitationPart := gs "published_date" },
        { Name := gs "language", Type' := gs "language", Label := gs "Language",
          Value := wcRec.Language, Visibility := gs "detailed",
          CitationPart := gs "language" },
        { Name := gs "title", Type' := gs "title", Label := gs "Title",
          Value := t0, CitationPart := gs "title" } ]
    let isbnPart := isbnFields wcRec.ISBN
    let worldcatLink : RecordField :=
      { Name := gs "worldcat_url", Type' := gs "url", Label := gs "More Details",
        Provider := gs "worldcat", Value := gs "http://worldcat.org/oclc/" ++ wcRec.ID,
        Visibility := gs "detailed" }
    let authors : List RecordField :=
      (wcRec.Creator ++ wcRec.Contributor).map fun val =>
        { Name := gs "author", Type' := gs "author", Label := gs "Author",
          Value := unescape val, CitationPart := gs "author" }
    let subjects : List RecordField :=
      wcRec.Subjects.map fun val =>
        { Name := gs "subject", Type' := gs "subject", Label := gs "Subject",
          Value := val, Visibility := gs "detailed", CitationPart := gs "subject" }
    let description : RecordField :=
      { Name := gs "description", Type' := gs "summary", Label := gs "Description",
        Value := strJoin wcRec.Description (gs " "), CitationPart := gs "abstract" }
    some (base ++ isbnPart.1 ++ [worldcatLink] ++ authors ++ subjects ++ [description])

/-- The parsed body of the secondary OCLC metadata lookup in
`getResource`. -/
structure FormatJSON where
  GeneralFormat : GoStr := []
  SpecificFormat : GoStr := []
  deriving DecidableEq, Repr

/-- The two enrichment fields `getResource` appends when the secondary
lookup succeeds and parses.  As in the source, both `Value`s are
`fmtJSON.GeneralFormat`. -/
def enrichmentFields (fmtJSON : FormatJSON) : List RecordField :=
  [ { Name := gs "general_format", Type' := gs "format", Label := gs "General Format",
      Value := fmtJSON.GeneralFormat, Display := gs "optional" },
    { Name := gs "specific_format", Type' := gs "format", Label := gs "Specific Format",
      Value := fmtJSON.GeneralFormat, Display := gs "optional" } ]

/-- The field list returned by `getResource`: the mapped record fields,
plus the enrichment fields whenever the auth refresh, the metadata
lookup and the JSON parse all succeeded (`fmtResult = some fmtJSON`);
any enrichment failure leaves the primary fields untouched. -/
def getResourceFields (unescape : GoStr → GoStr) (rec : WcRecord)
    (fmtResult : Option FormatJSON) : Option (List RecordField) :=
  match getResultFields unescape rec with
  | none => none
  | some fs =>
    match fmtResult with
    | none => some fs
    | some fmtJSON => some (fs ++ enrichmentFields fmtJSON)

/-! ## Claim theorems: date translation -/

/-- Claim C1 (code_bug evidence).  For the range criterion
`date: {1987 TO 1990}` the translation produces
`srw.yr >= 1987 and srw.yr <= 1987`: the upper bound is taken from the
starting year because the source passes `years[0]` to `extractYear`
for both endpoints.  Moreover an invalid ending year
(`date: {1987 TO 19}`) is accepted unchecked, so the
"Ending year is invalid" error is unreachable. -/
theorem c1_range_upper_bound_is_start_year :
    convertDateCriteria (gs "date: {1987 TO 1990}") =
      some (GoRes.ok (gs " srw.yr >= 1987 and srw.yr <= 1987 ")) ∧
    convertDateCriteria (gs "date: {1987 TO 19}") =
      some (GoRes.ok (gs " srw.yr >= 1987 and srw.yr <= 1987 ")) := by
  decide

/-- Claim C4 (code_bug evidence).  A five-digit year token and a year
token with adjacent text are both accepted by `extractYear`, because
the regular expression `\d{4}` is unanchored: it only requires four
consecutive digits somewhere in the token.  Both translations succeed,
contradicting the source's own error message that only a 4-digit year
is accepted. -/
theorem c4_overlong_year_tokens_accepted :
    convertDateCriteria (gs "date: {12345}") =
      some (GoRes.ok (gs " srw.yr = 12345 ")) ∧
    convertDateCriteria (gs "date: {AFTER 1987x}") =
      some (GoRes.ok (gs " srw.yr > 1987x ")) := by
  decide

/-! ## Claim theorems: search pipeline -/

/-- Claim C2 (counterexample).  A grammatically valid date-only query
is not answered with an empty result set: the `search` handler has no
date-only special case, so `date: {1987}` is translated and forwarded
upstream with the institution exclusions appended. -/
theorem c2_date_only_query_not_special_cased :
    searchOutcome (gs "date: {1987}") [] 0 20 =
      SearchOutcome.forward
        (gs "srw.yr = 1987 NOT srw.li = VA@  NOT srw.li = VAL NOT srw.li = VAM")
        (gs "startRecord=0&maximumRecords=20") ∧
    searchOutcome (gs "date: {1987}") [] 0 20 ≠ SearchOutcome.emptyResult := by
  decide

/-- Claim C2 (amended).  For every pagination pair, the date-only query
`date: {1987}` is forwarded upstream like any other query; the empty
result short-circuit exists only for requests carrying filters. -/
theorem c2_date_only_query_forwarded : ∀ start rows : Int,
    searchOutcome (gs "date: {1987}") [] start rows =
      SearchOutcome.forward
        (gs "srw.yr = 1987 NOT srw.li = VA@  NOT srw.li = VAL NOT srw.li = VAM")
        (goPagination start rows) := by
  intro start rows
  rfl

/-- Claim C8 (counterexample).  For a request with start 0 and rows 20
the upstream pagination parameters are `startRecord=0`, not the
1-based `startRecord=1` the claim asserts: the handler interpolates
`req.Pagination.Start` without adding 1. -/
theorem c8_start_not_incremented :
    searchOutcome (gs "title: {dogs}") [] 0 20 =
      SearchOutcome.forward
        (gs "srw.ti all dogs NOT srw.li = VA@  NOT srw.li = VAL NOT srw.li = VAM")
        (gs "startRecord=0&maximumRecords=20") ∧
    gs "startRecord=0&maximumRecords=20" ≠ gs "startRecord=1&maximumRecords=20" := by
  decide

/-- Claim C8 (amended).  For every pagination pair, the parameters sent
upstream are `startRecord` equal to the requested start unchanged and
`maximumRecords` equal to the requested row count. -/
theorem c8_pagination_passthrough : ∀ start rows : Int,
    searchOutcome (gs "title: {dogs}") [] start rows =
      SearchOutcome.forward
        (gs "srw.ti all dogs NOT srw.li = VA@  NOT srw.li = VAL NOT srw.li = VAM")
        (goPagination start rows) := by
  intro start rows
  rfl

/-! ## Claim theorems: field mapping (concrete records) -/

/-- Claim C3 (code_bug evidence).  A record whose title list is empty
makes `getResultFields` panic (`wcRec.Title[0]` indexes an empty
slice), modelled as `none`; the record's other data does not help. -/
theorem c3_missing_title_crashes :
    getResultFields id { Title := [] } = none ∧
    getResultFields id
      { ID := gs "886955987", Date := gs "2014", Language := gs "eng",
        ISBN := [gs "12345"], Title := [] } = none := by
  decide

/-- Record with one plain ISBN and zero access URLs, used to refute
claim C5: no availability field appears in its output. -/
def c5rec : WcRecord :=
  { ID := gs "42", Date := gs "2001", Language := gs "eng",
    ISBN := [gs "12345"], Title := [gs "T"] }

/-- Claim C5 (counterexample).  For a record with zero valid access
URLs the claim requires an availability field with value
`By Request`; the mapped field list contains no availability field at
all, because the availability emission is commented out in the latest
revision. -/
theorem c5_no_availability_field_emitted :
    (getResultFields id c5rec).map (fun fs => fs.map RecordField.Name) =
      some [gs "id", gs "publication_date", gs "language", gs "title",
            gs "isbn", gs "worldcat_url", gs "description"] ∧
    gs "availability" ∉
      [gs "id", gs "publication_date", gs "language", gs "title",
       gs "isbn", gs "worldcat_url", gs "description"] := by
  decide

/-- Claim C6 (code_bug evidence).  A record with non-empty publishers,
formats and types yields no publisher, format or type field: the three
source loops assign the constructed field to a local variable but
never append it. -/
theorem c6_publisher_format_type_never_appended :
    (getResultFields id
        { Title := [gs "t"], Publishers := [gs "Oxford"],
          Formats := [gs "print"], Type' := [gs "text"] }).map
        (fun fs => fs.map RecordField.Name) =
      some [gs "id", gs "publication_date", gs "language", gs "title",
            gs "worldcat_url", gs "description"] ∧
    gs "publisher" ∉
      [gs "id", gs "publication_date", gs "language", gs "title",
       gs "worldcat_url", gs "description"] ∧
    gs "format" ∉
      [gs "id", gs "publication_date", gs "language", gs "title",
       gs "worldcat_url", gs "description"] ∧
    gs "type" ∉
      [gs "id", gs "publication_date", gs "language", gs "title",
       gs "worldcat_url", gs "description"] := by
  decide

/-- Record exercising every emitted field family, used to refute the
ordering stated in claim C7. -/
def c7rec : WcRecord :=
  { ID := gs "123", Date := gs "1999", Language := gs "eng",
    ISBN := [gs "12345", gs "http://hathitrust.org/x"],
    Creator := [gs "Adams, A."], Contributor := [],
    Description := [gs "d"], Subjects := [gs "cats"], Title := [gs "T"],
    Type' := [gs "text"], Formats := [gs "print"], Publishers := [gs "Oxford"] }

/-- Claim C7 (counterexample).  The actual field-name order for
`c7rec` is id, publication date, language, title, isbn, access link,
worldcat link, author, subject, description: the permanent worldcat
link comes directly after the access links and before the author,
subject and description fields — not last among the detail-only
fields — and no availability, publisher, format or type field is
present, so the claimed order is wrong for this record. -/
theorem c7_claimed_field_order_wrong :
    (getResultFields id c7rec).map (fun fs => fs.map RecordField.Name) =
      some [gs "id", gs "publication_date", gs "language", gs "title",
            gs "isbn", gs "access_url", gs "worldcat_url", gs "author",
            gs "subject", gs "description"] ∧
    [gs "id", gs "publication_date", gs "language", gs "title",
     gs "isbn", gs "access_url", gs "worldcat_url", gs "author",
     gs "subject", gs "description"] ≠
      [gs "id", gs "publication_date", gs "language", gs "title",
       gs "isbn", gs "access_url", gs "availability", gs "author",
       gs "subject", gs "description", gs "publisher", gs "format",
       gs "type", gs "worldcat_url"] := by
  decide

/-! ## Claim theorem: resource enrichment -/

/-- Claim C10 (confirmed).  Whenever the secondary enrichment lookup
succeeds and parses, `getResource` appends exactly two fields, named
`general_format` and `specific_format`, and both carry the upstream
`generalFormat` value — `specificFormat` is never copied, so the two
values are always equal. -/
theorem c10_enrichment_fields_equal :
    ∀ (unescape : GoStr → GoStr) (rec : WcRecord) (fmtJSON : FormatJSON)
      (fs : List RecordField),
    getResultFields unescape rec = some fs →
    getResourceFields unescape rec (some fmtJSON) = some (fs ++ enrichmentFields fmtJSON) ∧
    (enrichmentFields fmtJSON).map RecordField.Name =
      [gs "general_format", gs "specific_format"] ∧
    (enrichmentFields fmtJSON).map RecordField.Value =
      [fmtJSON.GeneralFormat, fmtJSON.GeneralFormat] := by
  intro unescape rec fmtJSON fs h
  refine ⟨?_, rfl, rfl⟩
  unfold getResourceFields
  rw [h]

/-- Record used by the C10 witness. -/
def c10rec : WcRecord := { ID := gs "886955987", Title := [gs "T"] }

/-- The fields `getResultFields` maps `c10rec` to. -/
def c10fs : List RecordField :=
  [ { Name := gs "id", Type' := gs "identifier", Label := gs "Identifier",
      Value := gs "886955987", Display := gs "optional", CitationPart := gs "id" },
    { Name := gs "publication_date", Type' := gs "publication_date",
      Label := gs "Publication Date", CitationPart := gs "published_date" },
    { Name := gs "language", Type' := gs "language", Label := gs "Language",
      Visibility := gs "detailed", CitationPart := gs "language" },
    { Name := gs "title", Type' := gs "title", Label := gs "Title",
      Value := gs "T", CitationPart := gs "title" },
    { Name := gs "worldcat_url", Type' := gs "url", Label := gs "More Details",
      Provider := gs "worldcat", Value := gs "http://worldcat.org/oclc/886955987",
      Visibility := gs "detailed" },
    { Name := gs "description", Type' := gs "summary", Label := gs "Description",
      CitationPart := gs "abstract" } ]

/-- Claim C10 witness: the theorem applied to a concrete record and a
concrete parsed format response. -/
theorem c10_enrichment_fields_equal_witness :
    getResourceFields id c10rec (some { GeneralFormat := gs "Book", SpecificFormat := gs "Digital" }) =
      some (c10fs ++ enrichmentFields { GeneralFormat := gs "Book", SpecificFormat := gs "Digital" }) ∧
    (enrichmentFields { GeneralFormat := gs "Book", SpecificFormat := gs "Digital" }).map RecordField.Name =
      [gs "general_format", gs "specific_format"] ∧
    (enrichmentFields { GeneralFormat := gs "Book", SpecificFormat := gs "Digital" }).map RecordField.Value =
      [gs "Book", gs "Book"] :=
  c10_enrichment_fields_equal id c10rec
    { GeneralFormat := gs "Book", SpecificFormat := gs "Digital" } c10fs (by decide)

/-! ## Claim theorems: date-loop termination -/

/-- An input satisfying the claim's hypothesis (its single `date:`
marker is followed by a brace-delimited value) whose rewrite
synthesizes a fresh `date:` marker, defeating the per-occurrence
rewrite bound. -/
def c9query : GoStr := gs "date: {dAFTERate:1987} keyword: {AFTER 2000}"

/-- Claim C9 (counterexample).  `c9query` contains exactly one `date:`
marker, and that marker is followed by a brace-delimited value, yet
the extraction loop is not finished after one rewrite (fuel 2 runs
out): removing `AFTER` from the value manufactures a new `date:`
marker, and the second rewrite then consumes the unrelated keyword
criterion, so two rewrites happen for one occurrence.  A variant
without a trailing criterion even panics on the second iteration
(no `}` remains for the synthesized marker). -/
theorem c9_rewrite_bound_violated :
    strCount c9query (gs "date:") = 1 ∧
    convertDateLoop 2 c9query = none ∧
    convertDateLoop 3 c9query =
      some (GoRes.ok (gs "srw.yr > srw.yr > 2000 ")) ∧
    convertDateCriteria (gs "date: {dAFTERate:1987}") = some GoRes.crash := by
  decide

/-! ## Infrastructure lemmas for the generic theorems -/

namespace GoStrings

theorem strIndex_drop {s pat : GoStr} {i : Nat} (h : strIndex s pat = some i) :
    pat.isPrefixOf (s.drop i) = true := by
  induction s generalizing i with
  | nil =>
    unfold strIndex at h
    split at h
    · next hp => cases h; simpa using hp
    · simp at h
  | cons a rest ih =>
    unfold strIndex at h
    split at h
    · next hp => cases h; simpa using hp
    · next hp =>
      simp only [Option.map_eq_some'] at h
      obtain ⟨j, hj, rfl⟩ := h
      simpa using ih hj

theorem strIndex_singleton_take {s : GoStr} {c : Char} {i : Nat}
    (h : strIndex s [c] = some i) : c ∉ s.take i := by
  induction s generalizing i with
  | nil =>
    unfold strIndex at h
    split at h
    · cases h; simp
    · simp at h
  | cons a rest ih =>
    unfold strIndex at h
    split at h
    · cases h; simp
    · next hp =>
      simp only [Option.map_eq_some'] at h
      obtain ⟨j, hj, rfl⟩ := h
      have ha : c ≠ a := by
        intro hca
        exact hp (by simp [List.isPrefixOf, hca])
      simp only [List.take_succ_cons, List.mem_cons, not_or]
      exact ⟨ha, ih hj⟩

theorem strTrim_sublist (s : GoStr) : (strTrim s).Sublist s := by
  unfold strTrim
  have h1 : (s.dropWhile (· = ' ')).Sublist s := List.dropWhile_sublist _
  have h2 : (((s.dropWhile (· = ' ')).reverse.dropWhile (· = ' '))).Sublist
      (s.dropWhile (· = ' ')).reverse := List.dropWhile_sublist _
  have h3 := h2.reverse
  simp only [List.reverse_reverse] at h3
  exact h3.trans h1

theorem strTrim_count_le (s : GoStr) (c : Char) :
    (strTrim s).count c ≤ s.count c :=
  (strTrim_sublist s).count_le c

theorem strTrim_not_mem {s : GoStr} {c : Char} (h : c ∉ s) : c ∉ strTrim s :=
  fun hm => h ((strTrim_sublist s).subset hm)

theorem strReplaceAllAux_not_mem {c : Char} {old new : GoStr} (hnew : c ∉ new) :
    ∀ (fuel : Nat) (s : GoStr), c ∉ s → c ∉ strReplaceAllAux fuel s old new := by
  intro fuel
  induction fuel with
  | zero => intro s hs; simpa [strReplaceAllAux] using hs
  | succ n ih =>
    intro s hs
    unfold strReplaceAllAux
    split
    · intro hm
      rcases List.mem_append.mp hm with h | h
      · exact hnew h
      · exact ih _ (fun hd => hs ((List.drop_sublist _ _).subset hd)) h
    · cases s with
      | nil => simp
      | cons a rest =>
        simp only [List.mem_cons, not_or]
        simp only [List.mem_cons, not_or] at hs
        exact ⟨hs.1, ih _ hs.2⟩

theorem strReplaceAll_not_mem {c : Char} {s old new : GoStr} (hs : c ∉ s)
    (hnew : c ∉ new) : c ∉ strReplaceAll s old new :=
  strReplaceAllAux_not_mem hnew _ s hs

theorem strSplitAux_not_mem {c : Char} {sep : GoStr} :
    ∀ (fuel : Nat) (s : GoStr), c ∉ s → ∀ p ∈ strSplitAux fuel s sep, c ∉ p := by
  intro fuel
  induction fuel with
  | zero =>
    intro s hs p hp
    simp only [strSplitAux, List.mem_singleton] at hp
    exact hp ▸ hs
  | succ n ih =>
    intro s hs p hp
    unfold strSplitAux at hp
    split at hp
    · simp only [List.mem_singleton] at hp
      exact hp ▸ hs
    · split at hp
      · simp only [List.mem_singleton] at hp
        exact hp ▸ hs
      · rcases List.mem_cons.mp hp with h | h
        · exact h ▸ fun hm => hs ((List.take_sublist _ _).subset hm)
        · exact ih _ (fun hd => hs ((List.drop_sublist _ _).subset hd)) p h

theorem strSplitAux_ne_nil : ∀ (fuel : Nat) (s sep : GoStr),
    strSplitAux fuel s sep ≠ [] := by
  intro fuel s sep
  cases fuel with
  | zero => simp [strSplitAux]
  | succ n =>
    unfold strSplitAux
    split
    · simp
    · split <;> simp

theorem strSplit_headD_not_mem {c : Char} {s sep : GoStr} (h : c ∉ s) :
    c ∉ (strSplit s sep).headD [] := by
  cases hsp : strSplit s sep with
  | nil => exact absurd hsp (strSplitAux_ne_nil _ _ _)
  | cons p ps =>
    have hp : p ∈ strSplit s sep := by rw [hsp]; exact List.mem_cons_self _ _
    simpa using strSplitAux_not_mem _ _ h p hp

end GoStrings

theorem extractYear_ok_not_mem {c : Char} {y year : GoStr} (hc : c ∉ y)
    (h : extractYear y = Except.ok year) : c ∉ year := by
  simp only [extractYear] at h
  split at h
  · cases h
    exact strSplit_headD_not_mem hc
  · cases h

theorem rewriteDateToken_ok_no_brace {qt qt2 : GoStr} (hqt : ('}' : Char) ∉ qt)
    (h : rewriteDateToken qt = Except.ok qt2) : ('}' : Char) ∉ qt2 := by
  simp only [rewriteDateToken] at h
  split at h
  · split at h
    · cases h
    · next year hy =>
      cases h
      have hyear : ('}' : Char) ∉ year :=
        extractYear_ok_not_mem
          (strTrim_not_mem (strReplaceAll_not_mem hqt (by simp))) hy
      simp only [List.mem_append, not_or]
      exact ⟨by decide, hyear⟩
  · split at h
    · split at h
      · cases h
      · next year hy =>
        cases h
        have hyear : ('}' : Char) ∉ year :=
          extractYear_ok_not_mem
            (strTrim_not_mem (strReplaceAll_not_mem hqt (by simp))) hy
        simp only [List.mem_append, not_or]
        exact ⟨by decide, hyear⟩
    · split at h
      · split at h
        · cases h
        · next yearFrom hFrom =>
          split at h
          · cases h
          · next yearTo hTo =>
            cases h
            injection hTo with hft
            subst hft
            have hhead : ('}' : Char) ∉ (strSplit qt (gs " TO ")).headD [] :=
              strSplit_headD_not_mem hqt
            have h1 : ('}' : Char) ∉ yearFrom := extractYear_ok_not_mem hhead hFrom
            simp only [List.mem_append, not_or]
            exact ⟨⟨⟨by decide, h1⟩, by decide⟩, h1⟩
      · split at h
        · cases h
        · next year hy =>
          cases h
          have hyear : ('}' : Char) ∉ year :=
            extractYear_ok_not_mem (strTrim_not_mem hqt) hy
          simp only [List.mem_append, not_or]
          exact ⟨by decide, hyear⟩

/-- Every successful rewrite performed by the date-extraction loop
consumes the first close brace after the first `date:` marker and
introduces no new close brace, so the number of close braces strictly
decreases. -/
theorem convertDateStep_next_count_lt {q q2 : GoStr}
    (h : convertDateStep q = DateStep.next q2) :
    q2.count '}' < q.count '}' := by
  simp only [convertDateStep] at h
  split at h
  · cases h
  · next dateIdx hIdx =>
    split at h
    · cases h
    · next i1 hI1 =>
      split at h
      · cases h
      · split at h
        · cases h
        · next qt2 hqt2 =>
          cases h
          have hgs : gs "\x7d" = ['}'] := by decide
          have hI1' : strIndex (q.drop dateIdx) ['}'] = some i1 := by
            rw [← hgs]; exact hI1
          have htake : ('}' : Char) ∉ (q.drop dateIdx).take i1 :=
            strIndex_singleton_take hI1'
          have hprefix := strIndex_drop hI1
          have hdd : q.drop (dateIdx + i1 + 1) = (q.drop dateIdx).drop (i1 + 1) := by
            rw [List.drop_drop, Nat.add_assoc]
          have hcons : (q.drop dateIdx).drop i1 =
              '}' :: q.drop (dateIdx + i1 + 1) := by
            have hpre2 : ['}'] <+: (q.drop dateIdx).drop i1 :=
              List.isPrefixOf_iff_prefix.mp (by rw [← hgs]; exact hprefix)
            obtain ⟨t, ht⟩ := hpre2
            have htail : t = q.drop (dateIdx + i1 + 1) := by
              have h1 := List.drop_drop 1 i1 (q.drop dateIdx)
              rw [hdd, ← h1, ← ht]
              simp
            rw [← ht, htail]
            simp
          have hq2brace : ('}' : Char) ∉ qt2 :=
            rewriteDateToken_ok_no_brace
              (strTrim_not_mem
                (fun hm => htake ((List.drop_sublist _ _).subset hm))) hqt2
          have hc_take : ((q.drop dateIdx).take i1).count '}' = 0 :=
            List.count_eq_zero.mpr htake
          have hcount_q : q.count '}' =
              (q.take dateIdx).count '}' + 1 +
                (q.drop (dateIdx + i1 + 1)).count '}' := by
            calc q.count '}'
                = ((q.take dateIdx) ++ (q.drop dateIdx)).count '}' := by
                  rw [List.take_append_drop]
              _ = (q.take dateIdx).count '}' + (q.drop dateIdx).count '}' :=
                  List.count_append _ _ _
              _ = (q.take dateIdx).count '}' +
                  (((q.drop dateIdx).take i1) ++ ((q.drop dateIdx).drop i1)).count '}' := by
                  rw [List.take_append_drop]
              _ = (q.take dateIdx).count '}' +
                  (((q.drop dateIdx).take i1).count '}' +
                    ((q.drop dateIdx).drop i1).count '}') := by
                  rw [List.count_append]
              _ = (q.take dateIdx).count '}' + 1 +
                  (q.drop (dateIdx + i1 + 1)).count '}' := by
                  rw [hc_take, hcons, List.count_cons]
                  simp
                  omega
          have hpost_le : (strTrim (q.drop (dateIdx + i1 + 1))).count '}' ≤
              (q.drop (dateIdx + i1 + 1)).count '}' := strTrim_count_le _ _
          have hpre_le : (strTrim (q.take dateIdx)).count '}' ≤
              (q.take dateIdx).count '}' := strTrim_count_le _ _
          have hcount_q2 :
              (strTrim (q.take dateIdx) ++ gs " " ++ qt2 ++ gs " " ++
                strTrim (q.drop (dateIdx + i1 + 1))).count '}' =
              (strTrim (q.take dateIdx)).count '}' +
                (strTrim (q.drop (dateIdx + i1 + 1))).count '}' := by
            simp only [List.count_append]
            rw [List.count_eq_zero.mpr hq2brace]
            have hsp : (gs " ").count '}' = 0 := by decide
            rw [hsp]
            omega
          rw [hcount_q2, hcount_q]
          omega

/-- The loop only reports `done` when no `date:` marker remains, and it
returns the query unchanged. -/
theorem convertDateStep_done {q q2 : GoStr}
    (h : convertDateStep q = DateStep.done q2) :
    strIndex q (gs "date:") = none ∧ q2 = q := by
  simp only [convertDateStep] at h
  split at h
  · next hIdx => cases h; exact ⟨hIdx, rfl⟩
  · split at h
    · cases h
    · split at h
      · cases h
      · split at h
        · cases h
        · cases h

/-- Fuel `count of close braces + 1` always lets the loop finish. -/
theorem convertDateLoop_isSome :
    ∀ (n : Nat) (q : GoStr), q.count '}' ≤ n →
      (convertDateLoop (n + 1) q).isSome = true := by
  intro n
  induction n with
  | zero =>
    intro q hq
    unfold convertDateLoop
    cases hs : convertDateStep q with
    | done q' => simp
    | failed e => simp
    | crashed => simp
    | next q' =>
      have := convertDateStep_next_count_lt hs
      omega
  | succ n ih =>
    intro q hq
    unfold convertDateLoop
    cases hs : convertDateStep q with
    | done q' => simp
    | failed e => simp
    | crashed => simp
    | next q' =>
      have hlt := convertDateStep_next_count_lt hs
      exact ih q' (by omega)

/-- Adding fuel cannot change a result the loop already produced. -/
theorem convertDateLoop_mono :
    ∀ (f : Nat) (q : GoStr) (r : GoRes), convertDateLoop f q = some r →
      convertDateLoop (f + 1) q = some r := by
  intro f
  induction f with
  | zero => intro q r h; simp [convertDateLoop] at h
  | succ n ih =>
    intro q r h
    unfold convertDateLoop at h ⊢
    cases hs : convertDateStep q with
    | done q' => rw [hs] at h; exact h
    | failed e => rw [hs] at h; exact h
    | crashed => rw [hs] at h; exact h
    | next q' =>
      rw [hs] at h
      exact ih q' r h

/-- Any sufficient fuel produces the same result. -/
theorem convertDateLoop_le {f g : Nat} (hfg : f ≤ g) :
    ∀ {q : GoStr} {r : GoRes}, convertDateLoop f q = some r →
      convertDateLoop g q = some r := by
  induction g with
  | zero =>
    intro q r h
    have : f = 0 := by omega
    subst this
    exact h
  | succ n ih =>
    intro q r h
    rcases Nat.lt_or_ge f (n + 1) with hf | hf
    · exact convertDateLoop_mono n q r (ih (by omega) h)
    · have : f = n + 1 := by omega
      subst this
      exact h

/-- If the loop succeeds, the output contains no `date:` marker. -/
theorem convertDateLoop_ok_no_marker :
    ∀ (f : Nat) (q q2 : GoStr), convertDateLoop f q = some (GoRes.ok q2) →
      strIndex q2 (gs "date:") = none := by
  intro f
  induction f with
  | zero => intro q q2 h; simp [convertDateLoop] at h
  | succ n ih =>
    intro q q2 h
    unfold convertDateLoop at h
    cases hs : convertDateStep q with
    | done q' =>
      rw [hs] at h
      obtain ⟨hnone, rfl⟩ := convertDateStep_done hs
      cases h
      exact hnone
    | failed e => rw [hs] at h; cases h
    | crashed => rw [hs] at h; cases h
    | next q' =>
      rw [hs] at h
      exact ih q' q2 h

/-- Claim C9 (amended).  For every input query the date-extraction loop
terminates within `count of close braces + 1` iterations — the close
brace count strictly decreases at every rewrite — and this bound is
canonical: whenever any amount of fuel completes the loop, the result
agrees with `convertDateCriteria`.  Whenever the loop completes
successfully, its output contains no `date:` marker. -/
theorem c9_loop_terminates : ∀ q : GoStr,
    (convertDateCriteria q).isSome = true ∧
    (∀ q2, convertDateCriteria q = some (GoRes.ok q2) →
      strIndex q2 (gs "date:") = none) ∧
    (∀ f r, convertDateLoop f q = some r → convertDateCriteria q = some r) := by
  intro q
  refine ⟨convertDateLoop_isSome (q.count '}') q le_rfl, ?_, ?_⟩
  · intro q2 h
    exact convertDateLoop_ok_no_marker _ q q2 h
  · intro f r h
    obtain ⟨r', hr'⟩ := Option.isSome_iff_exists.mp
      (convertDateLoop_isSome (q.count '}') q le_rfl)
    have h1 : convertDateLoop (f + (q.count '}' + 1)) q = some r :=
      convertDateLoop_le (by omega) h
    have h2 : convertDateLoop (f + (q.count '}' + 1)) q = some r' :=
      convertDateLoop_le (by omega) hr'
    rw [h1] at h2
    cases h2
    exact hr'

/-- Claim C9 witness: the amended theorem applied to `date: {1987}`,
discharging both hypotheses at fuel 2. -/
theorem c9_loop_terminates_witness :
    convertDateCriteria (gs "date: {1987}") =
      some (GoRes.ok (gs " srw.yr = 1987 ")) ∧
    strIndex (gs " srw.yr = 1987 ") (gs "date:") = none :=
  ⟨(c9_loop_terminates (gs "date: {1987}")).2.2 2
      (GoRes.ok (gs " srw.yr = 1987 ")) (by decide),
   (c9_loop_terminates (gs "date: {1987}")).2.1 (gs " srw.yr = 1987 ")
      ((c9_loop_terminates (gs "date: {1987}")).2.2 2
        (GoRes.ok (gs " srw.yr = 1987 ")) (by decide))⟩

/-! ## Field-name characterization -/

/-- The names of the fields the ISBN loop appends, one sub-list per
source value. -/
def isbnNames : List GoStr → List GoStr
  | [] => []
  | val :: rest =>
    (if strContains val (gs "http") = false then [gs "isbn"]
     else if strContains val (gs "api.overdrive") || strContains val (gs "[institution]") then
       []
     else [gs "access_url"]) ++ isbnNames rest

theorem isbnFields_names : ∀ l : List GoStr,
    (isbnFields l).1.map RecordField.Name = isbnNames l := by
  intro l
  induction l with
  | nil => rfl
  | cons val rest ih =>
    simp only [isbnFields, isbnNames]
    split
    · simpa using ih
    · split
      · simpa using ih
      · simpa using ih

theorem isbnNames_mem {x : GoStr} : ∀ {l : List GoStr}, x ∈ isbnNames l →
    x = gs "isbn" ∨ x = gs "access_url" := by
  intro l
  induction l with
  | nil => intro h; cases h
  | cons val rest ih =>
    intro h
    simp only [isbnNames] at h
    rcases List.mem_append.mp h with h | h
    · split at h
      · left
        simpa using h
      · split at h
        · cases h
        · right
          simpa using h
    · exact ih h

/-- The field names `getResultFields` produces, in order, for any
record with a non-empty title list: the four fixed header fields, the
ISBN-loop fields, the worldcat link, one author field per creator and
contributor, one subject field per subject, and the description. -/
theorem getResultFields_names (unescape : GoStr → GoStr) (rec : WcRecord)
    (t0 : GoStr) (ts : List GoStr) (h : rec.Title = t0 :: ts) :
    (getResultFields unescape rec).map (fun fs => fs.map RecordField.Name) =
      some ([gs "id", gs "publication_date", gs "language", gs "title"] ++
        isbnNames rec.ISBN ++ [gs "worldcat_url"] ++
        rec.Creator.map (fun _ => gs "author") ++
        rec.Contributor.map (fun _ => gs "author") ++
        rec.Subjects.map (fun _ => gs "subject") ++ [gs "description"]) := by
  simp only [getResultFields]
  rw [h]
  simp [List.map_append, List.map_map, isbnFields_names, Function.comp_def,
    List.map_const', List.append_assoc]
  rw [List.replicate_add, List.append_assoc]

/-- Claim C5 (amended).  For every upstream record the mapped field
list contains no availability field at all: the Online / By Request
derivation is disabled (commented out) in the latest revision, even
though the `online` flag is still computed by the ISBN loop. -/
theorem c5_availability_never_emitted :
    ∀ (unescape : GoStr → GoStr) (rec : WcRecord) (fs : List RecordField),
    getResultFields unescape rec = some fs →
    gs "availability" ∉ fs.map RecordField.Name := by
  intro unescape rec fs h
  cases ht : rec.Title with
  | nil => simp [getResultFields, ht] at h
  | cons t0 ts =>
    have hn := getResultFields_names unescape rec t0 ts ht
    rw [h] at hn
    simp only [Option.map_some', Option.some.injEq] at hn
    rw [hn]
    intro hmem
    rcases List.mem_append.mp hmem with h6 | hd
    · rcases List.mem_append.mp h6 with h5 | hS
      · rcases List.mem_append.mp h5 with h4 | hK
        · rcases List.mem_append.mp h4 with h3 | hC
          · rcases List.mem_append.mp h3 with h2 | hW
            · rcases List.mem_append.mp h2 with hH | hI
              · exact absurd hH (by decide)
              · rcases isbnNames_mem hI with h | h <;> exact absurd h (by decide)
            · exact absurd hW (by decide)
          · obtain ⟨a, -, ha⟩ := List.mem_map.mp hC
            exact absurd ha (by decide)
        · obtain ⟨a, -, ha⟩ := List.mem_map.mp hK
          exact absurd ha (by decide)
      · obtain ⟨a, -, ha⟩ := List.mem_map.mp hS
        exact absurd ha (by decide)
    · exact absurd hd (by decide)

/-- Record used by the C5 witness. -/
def c5wrec : WcRecord := { ID := gs "99", Title := [gs "T"] }

/-- The fields `getResultFields` maps `c5wrec` to. -/
def c5wfs : List RecordField :=
  [ { Name := gs "id", Type' := gs "identifier", Label := gs "Identifier",
      Value := gs "99", Display := gs "optional", CitationPart := gs "id" },
    { Name := gs "publication_date", Type' := gs "publication_date",
      Label := gs "Publication Date", CitationPart := gs "published_date" },
    { Name := gs "language", Type' := gs "language", Label := gs "Language",
      Visibility := gs "detailed", CitationPart := gs "language" },
    { Name := gs "title", Type' := gs "title", Label := gs "Title",
      Value := gs "T", CitationPart := gs "title" },
    { Name := gs "worldcat_url", Type' := gs "url", Label := gs "More Details",
      Provider := gs "worldcat", Value := gs "http://worldcat.org/oclc/99",
      Visibility := gs "detailed" },
    { Name := gs "description", Type' := gs "summary", Label := gs "Description",
      CitationPart := gs "abstract" } ]

/-- Claim C5 witness: the amended theorem applied to a concrete
record, with the mapping hypothesis discharged by computation. -/
theorem c5_availability_never_emitted_witness :
    gs "availability" ∉ c5wfs.map RecordField.Name :=
  c5_availability_never_emitted id c5wrec c5wfs (by decide)

/-- Claim C7 (amended).  The actual deterministic field order:
identifier, publication date, language, title, then the ISBN and
access-link fields in source order, then the worldcat details link,
then creators, contributors, subjects, and the description.  No
availability, publisher, format or type fields are emitted, and the
worldcat link precedes the author, subject and description fields
rather than coming last. -/
theorem c7_field_name_order :
    ∀ (unescape : GoStr → GoStr) (rec : WcRecord) (t0 : GoStr) (ts : List GoStr),
    rec.Title = t0 :: ts →
    (getResultFields unescape rec).map (fun fs => fs.map RecordField.Name) =
      some ([gs "id", gs "publication_date", gs "language", gs "title"] ++
        isbnNames rec.ISBN ++ [gs "worldcat_url"] ++
        rec.Creator.map (fun _ => gs "author") ++
        rec.Contributor.map (fun _ => gs "author") ++
        rec.Subjects.map (fun _ => gs "subject") ++ [gs "description"]) :=
  fun unescape rec t0 ts h => getResultFields_names unescape rec t0 ts h

/-- Record used by the C7 witness. -/
def c7wrec : WcRecord :=
  { ID := gs "7", Title := [gs "T"], ISBN := [gs "12345"],
    Subjects := [gs "cats"] }

/-- Claim C7 witness: the amended ordering theorem applied to a
concrete record. -/
theorem c7_field_name_order_witness :
    (getResultFields id c7wrec).map (fun fs => fs.map RecordField.Name) =
      some ([gs "id", gs "publication_date", gs "language", gs "title"] ++
        isbnNames c7wrec.ISBN ++ [gs "worldcat_url"] ++
        c7wrec.Creator.map (fun _ => gs "author") ++
        c7wrec.Contributor.map (fun _ => gs "author") ++
        c7wrec.Subjects.map (fun _ => gs "subject") ++ [gs "description"]) :=
  c7_field_name_order id c7wrec (gs "T") [] (by decide)
